import Mathlib

/-!
# Verification of the New Caledonia commune locator core

Shallow embedding of the coordinate-parsing, validation, region-resolution,
name-search and selection-state core of the repository.  The main script is
`src/assets/js/app.js`; `src/unnamed/part_000` contains a minimal variant and
an "advanced" variant (with the decimal↔DMS conversion helpers `dec2dms` and
`dms2dec`); `src/unnamed/part_001` contains a further variant of the locate
handlers.

Modelling conventions:
* JavaScript numbers are modelled as rationals (`ℚ`); `NaN`/`Infinity` results
  of `parseFloat` are modelled by the dedicated `JsFloat` type.
* Strings are Lean `String`s; scanning works on their `List Char` data.
* The external point-in-polygon primitive (`leafletPip.pointInLayer`) is
  modelled per its documented contract — it returns the containing polygons
  in dataset insertion order — as an order-preserving filter by an abstract
  containment predicate.
* `String.prototype.normalize('NFD')` and `toLowerCase` are external Unicode
  library routines; they are modelled on the repertoire relevant to the
  dataset (ASCII plus the precomposed accented letters appearing in commune
  names), acting as the identity elsewhere.
-/

namespace NCL

/-- Result of JavaScript `parseFloat`: `NaN`, a signed `Infinity`, or a
finite value (modelled as a rational). -/
inductive JsFloat where
  | nan : JsFloat
  | inf (neg : Bool) : JsFloat
  | val (q : ℚ) : JsFloat
deriving DecidableEq

/-- Numeric value of a list of decimal digit characters (most significant
first). -/
def digitsToNat (l : List Char) : ℕ :=
  l.foldl (fun acc c => 10 * acc + (c.toNat - (48 : ℕ))) 0

/-- Value of an integer-part / fraction-part digit pair, e.g.
`decValue "165" "5" = 165.5`. -/
def decValue (ip fp : List Char) : ℚ :=
  (digitsToNat ip : ℚ) + (digitsToNat fp : ℚ) / 10 ^ fp.length

/-- Drop leading whitespace, as the `\s*` regex element and the leading
whitespace skip of `parseFloat` do. -/
def skipWs (l : List Char) : List Char := l.dropWhile Char.isWhitespace

/-- JavaScript `String.prototype.trim` on character lists: drop leading and
trailing whitespace. -/
def jsTrim (l : List Char) : List Char :=
  ((l.dropWhile Char.isWhitespace).reverse.dropWhile Char.isWhitespace).reverse

/-- Model of `raw.trim()` as a string operation. -/
def trimStr (s : String) : String := ⟨jsTrim s.data⟩

/-- Syntactic shape recognised by `parseFloat` on a string: no numeric
prefix (`nan`), an `Infinity` token, or sign / integer digits / fraction
digits / exponent sign / exponent digits. -/
inductive NumParts where
  | nan : NumParts
  | inf (neg : Bool) : NumParts
  | num (neg : Bool) (ip fp : List Char) (expNeg : Bool) (eds : List Char) : NumParts
deriving DecidableEq

/-- Character-level phase of JavaScript `parseFloat`: skip leading
whitespace, optional sign, then either an `Infinity` token or the longest
valid decimal-literal prefix (integer digits, optional fraction, optional
exponent). Returns `NumParts.nan` when no valid prefix exists. -/
def parseParts (s : List Char) : NumParts :=
  let l := skipWs s
  let (neg, l1) :=
    match l with
    | c :: rest =>
      if c = Char.ofNat 45 then (true, rest)
      else if c = Char.ofNat 43 then (false, rest)
      else (false, l)
    | [] => (false, l)
  if ("Infinity".data).isPrefixOf l1 then .inf neg
  else
    let (ip, l2) := l1.span Char.isDigit
    let (fp, l3) :=
      match l2 with
      | c :: rest => if c = Char.ofNat 46 then rest.span Char.isDigit else ([], l2)
      | [] => ([], l2)
    if ip = [] ∧ fp = [] then .nan
    else
      match l3 with
      | c :: rest =>
        if c = Char.ofNat 101 ∨ c = Char.ofNat 69 then
          let (eneg, r2) :=
            match rest with
            | d :: r3 =>
              if d = Char.ofNat 45 then (true, r3)
              else if d = Char.ofNat 43 then (false, r3)
              else (false, rest)
            | [] => (false, rest)
          let (eds, _) := r2.span Char.isDigit
          if eds = [] then .num neg ip fp false []
          else .num neg ip fp eneg eds
        else .num neg ip fp false []
      | [] => .num neg ip fp false []

/-- Numeric phase of `parseFloat`: interpret the recognised parts as a
rational `mantissa × 10^exponent`, with the sign applied. -/
def partsValue : NumParts → JsFloat
  | .nan => .nan
  | .inf neg => .inf neg
  | .num neg ip fp expNeg eds =>
    let mant := decValue ip fp
    let e : ℤ := if expNeg then -(digitsToNat eds : ℤ) else (digitsToNat eds : ℤ)
    let v := mant * (10 : ℚ) ^ e
    .val (if neg then -v else v)

/-- JavaScript `parseFloat`, as used throughout the repository. -/
def jsParseFloat (s : List Char) : JsFloat := partsValue (parseParts s)

/-- The `parseFloat` call restricted to finite results (`null`/`none` on `NaN` or
`Infinity`), as the repository code obtains via `Number.isFinite` checks. -/
def jsParseFloatOpt (l : List Char) : Option ℚ :=
  match jsParseFloat l with
  | .val q => some q
  | _ => none

/-- Function `parseNumber` from `app.js` (also `part_001`): parse a string into a
floating-point number, returning `null` (here `none`) if parsing fails or
the result is not finite. -/
def parseNumber (str : String) : Option ℚ :=
  match jsParseFloat str.data with
  | .val q => some q
  | _ => none

/-- Error message of `validateLatLon` for unparseable coordinates. -/
def parseErrMsg : String := "Could not parse coordinates."

/-- Error message of `validateLatLon` for out-of-range coordinates. -/
def rangeErrMsg : String := "Latitude must be in [-90,90] and longitude in [-180,180]."

/-- Function `validateLatLon` from `app.js` (identical in `part_001`): returns an
error message, or `null` (here `none`) when the pair is valid. -/
def validateLatLon (lat lon : Option ℚ) : Option String :=
  match lat, lon with
  | some la, some lo =>
    if la < -90 ∨ la > 90 ∨ lo < -180 ∨ lo > 180 then some rangeErrMsg else none
  | _, _ => some parseErrMsg

/-- A commune region: a GeoJSON feature whose `properties.name` may be
absent (`none`).  Dataset order is the list order wherever regions appear. -/
structure Region where
  name : Option String
deriving DecidableEq

/-- Expression `feature?.properties?.name || "Unknown commune"` — the display name used
by `identifyAt` (JavaScript `||` treats the empty string as falsy). -/
def displayName (r : Region) : String :=
  match r.name with
  | some n => if n = "" then "Unknown commune" else n
  | none => "Unknown commune"

/-- Expression `layer.feature?.properties?.name || ""` — the candidate name used by
`searchByName`. -/
def nameOrEmpty (r : Region) : String :=
  match r.name with
  | some n => n
  | none => ""

/-- The external `leafletPip.pointInLayer` primitive, modelled per its
documented contract (spec §6): given a `(lng, lat)` point it returns the
regions containing it, in dataset insertion order.  Containment itself is
an abstract predicate `inside`. -/
def pointInLayer (inside : ℚ × ℚ → Region → Bool) (p : ℚ × ℚ) (regions : List Region) :
    List Region :=
  regions.filter (inside p)

/-- Popup text of `identifyAt` when no region contains the point. -/
def noCommuneMsg : String := "No commune found at this location."

/-- Function `identifyAt` from `app.js` (resolution outcome, i.e. the `popupText` it
computes and shows): `communeLayer` is `none` before the dataset loads;
`leafletPip` is called with `[lng, lat]` (axis swap); `hits[0]` names the
commune, otherwise the not-found text is kept. -/
def identifyAt (inside : ℚ × ℚ → Region → Bool) (communeLayer : Option (List Region))
    (lat lng : ℚ) : String :=
  match communeLayer with
  | none => noCommuneMsg
  | some regions =>
    match pointInLayer inside (lng, lat) regions with
    | [] => noCommuneMsg
    | h :: _ => "Commune: " ++ displayName h

/-- Combining diacritical marks U+0300–U+036F, the range stripped by the
`replace(/[̀-ͯ]/g, "")` step of `normalize`. -/
def isCombiningMark (c : Char) : Bool :=
  768 ≤ c.toNat && c.toNat ≤ 879

/-- Canonical (NFD) decompositions for the precomposed accented letters in
the repertoire used by the commune dataset.  Models the external
`String.prototype.normalize('NFD')` on that repertoire. -/
def nfdTable : List (Char × List Char) :=
  [(Char.ofNat 0xE9, [Char.ofNat 101, Char.ofNat 0x301]),
   (Char.ofNat 0xC9, [Char.ofNat 69, Char.ofNat 0x301]),
   (Char.ofNat 0xE8, [Char.ofNat 101, Char.ofNat 0x300]),
   (Char.ofNat 0xC8, [Char.ofNat 69, Char.ofNat 0x300]),
   (Char.ofNat 0xEF, [Char.ofNat 105, Char.ofNat 0x308]),
   (Char.ofNat 0xCF, [Char.ofNat 73, Char.ofNat 0x308])]

/-- Per-character NFD decomposition: table entry, or the character itself. -/
def nfdChar (c : Char) : List Char :=
  match nfdTable.find? (fun p => p.1 == c) with
  | some p => p.2
  | none => [c]

/-- Lowercase mapping for the basic Latin letters (models `toLowerCase` on
the repertoire reaching it after mark stripping). -/
def lowerTable : List (Char × Char) :=
  [(Char.ofNat 65, Char.ofNat 97), (Char.ofNat 66, Char.ofNat 98),
   (Char.ofNat 67, Char.ofNat 99), (Char.ofNat 68, Char.ofNat 100),
   (Char.ofNat 69, Char.ofNat 101), (Char.ofNat 70, Char.ofNat 102),
   (Char.ofNat 71, Char.ofNat 103), (Char.ofNat 72, Char.ofNat 104),
   (Char.ofNat 73, Char.ofNat 105), (Char.ofNat 74, Char.ofNat 106),
   (Char.ofNat 75, Char.ofNat 107), (Char.ofNat 76, Char.ofNat 108),
   (Char.ofNat 77, Char.ofNat 109), (Char.ofNat 78, Char.ofNat 110),
   (Char.ofNat 79, Char.ofNat 111), (Char.ofNat 80, Char.ofNat 112),
   (Char.ofNat 81, Char.ofNat 113), (Char.ofNat 82, Char.ofNat 114),
   (Char.ofNat 83, Char.ofNat 115), (Char.ofNat 84, Char.ofNat 116),
   (Char.ofNat 85, Char.ofNat 117), (Char.ofNat 86, Char.ofNat 118),
   (Char.ofNat 87, Char.ofNat 119), (Char.ofNat 88, Char.ofNat 120),
   (Char.ofNat 89, Char.ofNat 121), (Char.ofNat 90, Char.ofNat 122)]

/-- Per-character lowercase step. -/
def lowerChar (c : Char) : Char :=
  match lowerTable.find? (fun p => p.1 == c) with
  | some p => p.2
  | none => c

/-- NFD stage of `normalize`, character by character. -/
def nfdL : List Char → List Char
  | [] => []
  | c :: t => nfdChar c ++ nfdL t

/-- Mark-stripping stage of `normalize`. -/
def stripMarks (l : List Char) : List Char :=
  l.filter (fun c => !isCombiningMark c)

/-- Lowercasing stage of `normalize`. -/
def lowerL (l : List Char) : List Char := l.map lowerChar

/-- The three stages of the repository's `normalize` helper on character
lists: NFD decomposition, strip U+0300–U+036F, lowercase. -/
def normList (l : List Char) : List Char := lowerL (stripMarks (nfdL l))

/-- Function `normalize` from `app.js` (identical in both `unnamed` parts):
`s.normalize('NFD').replace(/[̀-ͯ]/g, "").toLowerCase()`. -/
def normalize (s : String) : String := ⟨normList s.data⟩

/-- Per-character action of the full normalization pipeline. -/
def normCharL (c : Char) : List Char := lowerL (stripMarks (nfdChar c))

/-- Prefix test `needle.isPrefixOf hay` on character lists. -/
def isPrefixL : List Char → List Char → Bool
  | [], _ => true
  | _ :: _, [] => false
  | a :: as, b :: bs => a == b && isPrefixL as bs

/-- JavaScript `hay.includes(needle)`: substring containment. -/
def containsSub (needle : List Char) : List Char → Bool
  | [] => isPrefixL needle []
  | l@(_ :: t) => isPrefixL needle l || containsSub needle t

/-- Result of `searchByName`: dataset missing, no matching name, or the
first matching region. -/
inductive SearchResult where
  | dataNotLoaded : SearchResult
  | noMatch : SearchResult
  | found (r : Region) : SearchResult
deriving DecidableEq

/-- Function `searchByName` from `app.js` (identical in `part_000`): report when the
dataset is not loaded; otherwise scan the layers in dataset order with an
early-exit accumulator (`matchLayer`), matching by accent/case-insensitive
substring containment of the normalized query in the normalized name. -/
def searchByName (communeLayer : Option (List Region)) (raw : String) : SearchResult :=
  match communeLayer with
  | none => .dataNotLoaded
  | some regions =>
    let q := normList raw.data
    let matchLayer := regions.foldl
      (fun acc layer =>
        match acc with
        | some _ => acc
        | none =>
          if containsSub q (normList (nameOrEmpty layer).data) then some layer else none)
      none
    match matchLayer with
    | none => .noMatch
    | some r => .found r

/-- Observable outcome of a locate handler: silent return on empty input,
an error toast, a resolution request `identifyAt(lat, lng, true)`, or a
fallback name search. -/
inductive LocateOutcome where
  | noop : LocateOutcome
  | toast (msg : String) : LocateOutcome
  | identify (lat lng : ℚ) : LocateOutcome
  | nameSearch (raw : String) : LocateOutcome
deriving DecidableEq

/-- Match a `-?\d+(?:\.\d+)?` token at the head of the input, returning the
matched characters and the rest (greedy, as the regex engine does). -/
def matchNumTok (l : List Char) : Option (List Char × List Char) :=
  let (sign, l1) :=
    match l with
    | c :: rest => if c = Char.ofNat 45 then (([c] : List Char), rest) else ([], l)
    | [] => (([] : List Char), l)
  let (ds, l2) := l1.span Char.isDigit
  if ds = [] then none
  else
    match l2 with
    | c :: rest =>
      if c = Char.ofNat 46 then
        let (fs, l3) := rest.span Char.isDigit
        if fs = [] then some (sign ++ ds, l2) else some (sign ++ ds ++ c :: fs, l3)
      else some (sign ++ ds, l2)
    | [] => some (sign ++ ds, l2)

/-- The anchored two-number pattern of `app.js`'s `locateFromSingleDec`:
`^\s*(-?\d+(?:\.\d+)?)\s*,\s*(-?\d+(?:\.\d+)?)\s*$`.  Returns the two
captured group strings. -/
def matchSingleDec (l : List Char) : Option (List Char × List Char) :=
  match matchNumTok (skipWs l) with
  | none => none
  | some (g1, l1) =>
    match skipWs l1 with
    | c :: l3 =>
      if c = Char.ofNat 44 then
        match matchNumTok (skipWs l3) with
        | none => none
        | some (g2, l5) => if skipWs l5 = [] then some (g1, g2) else none
      else none
    | [] => none

/-- The anchored two-number pattern of `part_001`'s `locateFromSingleDec`:
`^(-?\d+(?:\.\d+)?),\s*(-?\d+(?:\.\d+)?)$` (no whitespace tolerance before
the comma). -/
def matchSingleDecStrict (l : List Char) : Option (List Char × List Char) :=
  match matchNumTok l with
  | none => none
  | some (g1, l1) =>
    match l1 with
    | c :: l2 =>
      if c = Char.ofNat 44 then
        match matchNumTok (skipWs l2) with
        | none => none
        | some (g2, l4) => if l4 = [] then some (g1, g2) else none
      else none
    | [] => none

/-- Toast message of `app.js`'s `locateFromSingleDec` when a matched group
fails to parse. -/
def invalidNumbersMsg : String := "Invalid numbers"

end NCL

namespace NCL.App

open NCL

/-- Function `locateFromSingleDec` from `app.js`: trim; empty input is a silent
return; a two-number match is treated as a coordinate pair — swapping the
interpretation to `(lon, lat)` when the first number is outside the
latitude range while the second is inside — validated and resolved;
anything else falls back to the name search. -/
def locateFromSingleDec (raw : String) : LocateOutcome :=
  let r := trimStr raw
  if r = "" then .noop
  else
    match matchSingleDec r.data with
    | some (g1, g2) =>
      match parseNumber ⟨g1⟩, parseNumber ⟨g2⟩ with
      | some a, some b =>
        let p := if (a < -90 ∨ a > 90) ∧ (-90 ≤ b ∧ b ≤ 90) then (b, a) else (a, b)
        match validateLatLon (some p.1) (some p.2) with
        | some err => .toast err
        | none => .identify p.1 p.2
      | _, _ => .toast invalidNumbersMsg
    | none => .nameSearch r

end NCL.App

namespace NCL.Variant

open NCL

/-- Function `locateFromSingleDec` from `part_001`: same structure as the `app.js`
version but with the stricter pattern and no swap heuristic — the matched
numbers are always interpreted as `(lat, lng)` in the order written.  (The
final catch-all branch is unreachable: `validateLatLon` reports an error
whenever either number is `null`.) -/
def locateFromSingleDec (raw : String) : LocateOutcome :=
  let r := trimStr raw
  if r = "" then .noop
  else
    match matchSingleDecStrict r.data with
    | some (g1, g2) =>
      let lat := parseNumber ⟨g1⟩
      let lng := parseNumber ⟨g2⟩
      match lat, lng, validateLatLon lat lng with
      | _, _, some err => .toast err
      | some la, some lo, none => .identify la lo
      | _, _, none => .toast parseErrMsg
    | none => .nameSearch r

end NCL.Variant

namespace NCL

/-- A single match of the DMS coordinate-group regex of
`locateFromSingleDms`: the degree token (group 1), the optional minute and
second tokens (groups 2 and 3), and the compass letter (group 4). -/
structure DmsMatch where
  deg : List Char
  min : Option (List Char)
  sec : Option (List Char)
  dir : Char
deriving DecidableEq

/-- The degree sign `°`. -/
def degSign : Char := Char.ofNat 0xB0

/-- ASCII apostrophe, the minute mark accepted alongside `′`. -/
def aposChar : Char := Char.ofNat 39

/-- Unicode prime `′`. -/
def primeChar : Char := Char.ofNat 0x2032

/-- ASCII double quote, the second mark accepted alongside `″`. -/
def quotChar : Char := Char.ofNat 34

/-- Unicode double prime `″`. -/
def dprimeChar : Char := Char.ofNat 0x2033

/-- Test for `[NSEW]` with the case-insensitive flag. -/
def isDirChar (c : Char) : Bool :=
  c == Char.ofNat 78 || c == Char.ofNat 83 || c == Char.ofNat 69 || c == Char.ofNat 87 ||
  c == Char.ofNat 110 || c == Char.ofNat 115 || c == Char.ofNat 101 || c == Char.ofNat 119

/-- Greedy run of `[\d\.]+` characters. -/
def takeDigitsDots (l : List Char) : List Char × List Char :=
  l.span (fun c => c.isDigit || c == Char.ofNat 46)

/-- Try to match one DMS coordinate group
`([\-]?\d+(?:\.\d+)?)\s*°\s*([\d\.]+)?\s*(?:'|′)?\s*([\d\.]+)?\s*(?:"|″)?\s*([NSEW])`
at the head of the input, returning the captured groups and the remaining
input.  Greedy matching of each element coincides with the backtracking
regex semantics for this pattern, because no optional element can consume a
character the following elements could need. -/
def tryMatchDms (l : List Char) : Option (DmsMatch × List Char) :=
  let (sign, l1) :=
    match l with
    | c :: rest => if c = Char.ofNat 45 then (([c] : List Char), rest) else ([], l)
    | [] => (([] : List Char), l)
  let (ds, l2) := l1.span Char.isDigit
  if ds = [] then none
  else
    let (frac, l3) :=
      match l2 with
      | c :: rest =>
        if c = Char.ofNat 46 then
          let (fs, l3a) := rest.span Char.isDigit
          if fs = [] then (([] : List Char), l2) else (c :: fs, l3a)
        else (([] : List Char), l2)
      | [] => (([] : List Char), l2)
    match skipWs l3 with
    | c :: l5 =>
      if c = degSign then
        let (g2, l7) := takeDigitsDots (skipWs l5)
        let l8 := skipWs l7
        let l9 :=
          match l8 with
          | c2 :: r => if c2 = aposChar ∨ c2 = primeChar then r else l8
          | [] => l8
        let (g3, l11) := takeDigitsDots (skipWs l9)
        let l12 := skipWs l11
        let l13 :=
          match l12 with
          | c3 :: r => if c3 = quotChar ∨ c3 = dprimeChar then r else l12
          | [] => l12
        match skipWs l13 with
        | d :: l15 =>
          if isDirChar d then
            some (⟨sign ++ ds ++ frac,
                   if g2 = [] then none else some g2,
                   if g3 = [] then none else some g3, d⟩, l15)
          else none
        | [] => none
      else none
    | [] => none

/-- Fuelled scan loop for the global (`/g`) DMS regex: at each position try
a match; on success continue after the match, otherwise advance one
character.  Every successful match consumes at least one character, so fuel
`length + 1` never runs out. -/
def scanDmsAux : ℕ → List Char → List DmsMatch
  | 0, _ => []
  | _, [] => []
  | fuel + 1, l@(_ :: rest) =>
    match tryMatchDms l with
    | some (g, remaining) => g :: scanDmsAux fuel remaining
    | none => scanDmsAux fuel rest

/-- All matches of the DMS coordinate-group regex, left to right, as the
`while ((m = pattern.exec(raw)) !== null)` loop collects them. -/
def scanDms (l : List Char) : List DmsMatch := scanDmsAux (l.length + 1) l

/-- ASCII uppercase step of `toUpperCase`, enough for the `[NSEWnsew]`
compass letters it is applied to. -/
def upperChar (c : Char) : Char :=
  if 97 ≤ c.toNat && c.toNat ≤ 122 then Char.ofNat (c.toNat - 32) else c

/-- Function `dmsMatchToDecimal` from `app.js`: convert one regex match to decimal
degrees.  Minutes and seconds default to 0; all three numbers must be
finite and minutes/seconds in `[0, 60)`; the sign comes from the degree
token when negative, otherwise from the compass letter (`S`/`W` negative). -/
def dmsMatchToDecimal (m : DmsMatch) : Option ℚ :=
  let deg? := jsParseFloatOpt m.deg
  let min? := match m.min with | some s => jsParseFloatOpt s | none => some 0
  let sec? := match m.sec with | some s => jsParseFloatOpt s | none => some 0
  match deg?, min?, sec? with
  | some deg, some mn, some sc =>
    if mn < 0 ∨ 60 ≤ mn ∨ sc < 0 ∨ 60 ≤ sc then none
    else
      let dec := |deg| + mn / 60 + sc / 3600
      if deg < 0 then some (-dec)
      else if upperChar m.dir = Char.ofNat 83 ∨ upperChar m.dir = Char.ofNat 87 then
        some (-dec)
      else some dec
  | _, _, _ => none

/-- The example DMS string from the parse-failure toast and the spec
scenario: `20°44'19.7"S 164°47'41.6"E`. -/
def dmsScenario : String :=
  "20°44" ++ ⟨[aposChar]⟩ ++ "19.7" ++ ⟨[quotChar]⟩ ++ "S 164°47" ++ ⟨[aposChar]⟩ ++
  "41.6" ++ ⟨[quotChar]⟩ ++ "E"

/-- Toast message of `locateFromSingleDms` when fewer than two DMS groups
match. -/
def dmsParseErrMsg : String :=
  "Could not parse DMS string. Expect format like " ++ dmsScenario

/-- Toast message of `locateFromSingleDms` when a group has invalid
numbers. -/
def invalidDmsMsg : String := "Invalid DMS values in input."

end NCL

namespace NCL.App

open NCL

/-- Function `locateFromSingleDms` from `app.js`: trim; empty input is a silent
return; collect all DMS-group matches; fewer than two is a parse failure;
otherwise the first two matches, in left-to-right order, are converted as
latitude then longitude, validated and resolved. -/
def locateFromSingleDms (raw : String) : LocateOutcome :=
  let r := trimStr raw
  if r = "" then .noop
  else
    match scanDms r.data with
    | g0 :: g1 :: _ =>
      match dmsMatchToDecimal g0, dmsMatchToDecimal g1 with
      | some la, some lo =>
        match validateLatLon (some la) (some lo) with
        | some err => .toast err
        | none => .identify la lo
      | _, _ => .toast invalidDmsMsg
    | _ => .toast dmsParseErrMsg

end NCL.App

namespace NCL.Adv

open NCL

/-- Model of `Number.prototype.toFixed(2)` for the nonnegative seconds values it is
applied to: round to two decimal places (ties, and hence positive halves,
round up — the ECMAScript spec picks the larger candidate). -/
def toFixed2 (q : ℚ) : ℚ := (⌊q * 100 + 1 / 2⌋ : ℚ) / 100

/-- Function `dec2dms` from the advanced script in `part_000`: split a decimal
degree value into degrees (carrying the sign), minutes, and seconds
rendered with two decimals. -/
def dec2dms (dec : ℚ) : ℚ × ℚ × ℚ :=
  let sign : ℚ := if dec < 0 then -1 else 1
  let a := |dec|
  let d : ℚ := (⌊a⌋ : ℚ)
  let m : ℚ := (⌊(a - d) * 60⌋ : ℚ)
  let s : ℚ := toFixed2 (((a - d) * 60 - m) * 60)
  (d * sign, m, s)

/-- Function `dms2dec` from the advanced script in `part_000`: recombine a
degrees/minutes/seconds triple; the sign of the degrees component controls
the sign of the result (`Math.sign(deg) || 1`, so a zero degrees component
yields a nonnegative result). -/
def dms2dec (parts : ℚ × ℚ × ℚ) : ℚ :=
  let deg := parts.1
  let mn := parts.2.1
  let sc := parts.2.2
  let absDeg := |deg| + mn / 60 + sc / 3600
  if deg < 0 then -absDeg else absDeg

end NCL.Adv

namespace NCL

/-- Commune polygon style, with the fields the scripts set and reset
(`setStyle` merges fields; our record carries exactly the ones involved). -/
structure PolyStyle where
  color : String
  weight : ℚ
  fillColor : String
  fillOpacity : ℚ
deriving DecidableEq

/-- The highlight applied by `selectCommuneLayer`:
`layer.setStyle({ weight: 3, color: '#ff9800', fillOpacity: 0.5 })` — a
partial merge into the current style. -/
def highlightPolyStyle (st : PolyStyle) : PolyStyle :=
  { st with weight := 3, color := "#ff9800", fillOpacity := 1 / 2 }

/-- Visual state of a point marker: a circle marker's radius and weight, or
a square `divIcon`'s size. -/
inductive MarkerVisual where
  | circleStyle (radius weight : ℚ) : MarkerVisual
  | squareIcon (size : ℚ) : MarkerVisual
deriving DecidableEq

/-- Marker shape of a user point. -/
inductive Shape where
  | circle : Shape
  | square : Shape
deriving DecidableEq

/-- A user-placed point, as far as selection is concerned. -/
structure UserPoint where
  id : ℕ
  shape : Shape
  visual : MarkerVisual
deriving DecidableEq

/-- Highlight a point marker as `selectPoint` does: circles get
`setStyle({radius: 9, weight: 2})`, squares a 16px icon. -/
def highlightPointVisual (p : UserPoint) : UserPoint :=
  { p with
    visual :=
      match p.shape with
      | .circle => .circleStyle 9 2
      | .square => .squareIcon 16 }

/-- Reset a point marker as `clearSelection` does: circles get
`setStyle({radius: 6, weight: 1})`, squares a 12px icon. -/
def resetPointVisual (p : UserPoint) : UserPoint :=
  { p with
    visual :=
      match p.shape with
      | .circle => .circleStyle 6 1
      | .square => .squareIcon 12 }

/-- Update the style of the polygon with the given id. -/
def setPolyStyle (polys : List (ℕ × PolyStyle)) (pid : ℕ) (f : PolyStyle → PolyStyle) :
    List (ℕ × PolyStyle) :=
  polys.map (fun q => if q.1 = pid then (q.1, f q.2) else q)

/-- The selection-relevant application state of `app.js`: the user points,
the commune layer (polygon id ↦ current style; `none` before the dataset
loads), the dataset's default style function (runtime-adjustable through
the style panel — `resetStyle` restores to whatever it currently is), the
current selections and the selection-mode flag. -/
structure AppState where
  points : List UserPoint
  communePolys : Option (List (ℕ × PolyStyle))
  defaultPolyStyle : PolyStyle
  selectedPointId : Option ℕ
  selectedPolygon : Option ℕ
  selectionMode : Bool
deriving DecidableEq

/-- Function `clearSelection` from `app.js`: reset the selected polygon's style via
`communeLayer.resetStyle` (restoring the dataset's current default style)
and drop the polygon selection; reset the selected point's marker visual
and drop the point selection; leave selection mode. -/
def clearSelection (s : AppState) : AppState :=
  let s1 :=
    match s.selectedPolygon with
    | some pid =>
      match s.communePolys with
      | some polys =>
        { s with
          communePolys := some (setPolyStyle polys pid (fun _ => s.defaultPolyStyle)),
          selectedPolygon := none }
      | none => { s with selectedPolygon := none }
    | none => s
  let s2 :=
    match s1.selectedPointId with
    | some id =>
      { s1 with
        points := s1.points.map (fun (p : UserPoint) => if p.id = id then resetPointVisual p else p),
        selectedPointId := none }
    | none => s1
  { s2 with selectionMode := false }

/-- Function `selectPoint` from `app.js`: no-op when the id is unknown; otherwise
clear the previous selection first, then select and highlight the point. -/
def selectPoint (s : AppState) (id : ℕ) : AppState :=
  match s.points.find? (fun p => p.id == id) with
  | none => s
  | some _ =>
    let s1 := clearSelection s
    { s1 with
      selectionMode := true,
      selectedPointId := some id,
      points := s1.points.map (fun (p : UserPoint) => if p.id = id then highlightPointVisual p else p) }

/-- Function `selectCommuneLayer` from `app.js`: no-op on a null layer; otherwise
clear the previous selection first, then select the polygon and apply the
highlight style merge. -/
def selectCommuneLayer (s : AppState) (layer : Option ℕ) : AppState :=
  match layer with
  | none => s
  | some pid =>
    let s1 := clearSelection s
    { s1 with
      selectionMode := true,
      selectedPolygon := some pid,
      communePolys := s1.communePolys.map (fun polys => setPolyStyle polys pid highlightPolyStyle) }

/-- A selection operation: pick a point, pick a commune layer (possibly
null), or clear. -/
inductive SelOp where
  | point (id : ℕ) : SelOp
  | commune (layer : Option ℕ) : SelOp
  | clear : SelOp
deriving DecidableEq

/-- Apply one selection operation. -/
def applyOp (s : AppState) : SelOp → AppState
  | .point id => selectPoint s id
  | .commune l => selectCommuneLayer s l
  | .clear => clearSelection s

/-- Apply a sequence of selection operations. -/
def runOps (s : AppState) (ops : List SelOp) : AppState := ops.foldl applyOp s

/-- At most one entity is selected: the point and polygon selections are
never both set. -/
def atMostOneSelected (s : AppState) : Prop :=
  s.selectedPointId = none ∨ s.selectedPolygon = none

instance (s : AppState) : Decidable (atMostOneSelected s) := by
  unfold atMostOneSelected; infer_instance

/-!
## Helper lemmas
-/

/-- The first element of a filtered list is the first element satisfying
the predicate. -/
theorem head?_filter_eq_find? {α : Type} (p : α → Bool) (l : List α) :
    (l.filter p).head? = l.find? p := by
  induction l with
  | nil => rfl
  | cons a t ih =>
    cases h : p a with
    | true => simp [List.filter_cons, h, List.find?_cons_of_pos]
    | false => simp [List.filter_cons, h, List.find?_cons_of_neg, ih]

/-- The early-exit accumulator loop of `searchByName` keeps an already
found match. -/
theorem searchFold_some (f : Region → Bool) (l : List Region) (r : Region) :
    l.foldl
      (fun acc layer =>
        match acc with
        | some _ => acc
        | none => if f layer then some layer else none)
      (some r) = some r := by
  induction l with
  | nil => rfl
  | cons a t ih => simpa using ih

/-- The early-exit accumulator loop of `searchByName` computes the first
match in dataset order. -/
theorem searchFold_eq_find? (f : Region → Bool) (l : List Region) :
    l.foldl
      (fun acc layer =>
        match acc with
        | some _ => acc
        | none => if f layer then some layer else none)
      none = l.find? f := by
  induction l with
  | nil => rfl
  | cons a t ih =>
    cases h : f a with
    | true => simp [List.foldl_cons, h, searchFold_some, List.find?_cons_of_pos]
    | false => simp [List.foldl_cons, h, ih, List.find?_cons_of_neg]

/-- The empty needle is a substring of every string. -/
theorem containsSub_nil (hay : List Char) : containsSub [] hay = true := by
  cases hay with
  | nil => rfl
  | cons a t => simp [containsSub, isPrefixL]

/-- Unfolding `normList` over a cons. -/
theorem normList_cons (c : Char) (t : List Char) :
    normList (c :: t) = normCharL c ++ normList t := by
  simp [normList, nfdL, stripMarks, lowerL, normCharL, List.filter_append, List.map_append]

/-- Normalization distributes over append. -/
theorem normList_append (l1 l2 : List Char) :
    normList (l1 ++ l2) = normList l1 ++ normList l2 := by
  induction l1 with
  | nil => simp [normList, nfdL, stripMarks, lowerL]
  | cons c t ih => simp only [List.cons_append, normList_cons, ih, List.append_assoc]

/-- Every character produced by the normalization pipeline is a fixed
point of the pipeline. -/
theorem normCharL_closed (c : Char) : ∀ d ∈ normCharL c, normCharL d = [d] := by
  rcases h1 : nfdTable.find? (fun p => p.1 == c) with _ | p
  · have hnfd : nfdChar c = [c] := by rw [nfdChar, h1]
    by_cases h2 : isCombiningMark c = true
    · intro d hd
      have hempty : normCharL c = [] := by
        simp [normCharL, hnfd, stripMarks, h2, lowerL]
      rw [hempty] at hd
      simp at hd
    · rcases h3 : lowerTable.find? (fun q => q.1 == c) with _ | p2
      · have hlow : lowerChar c = c := by rw [lowerChar, h3]
        have hcc : normCharL c = [c] := by
          simp [normCharL, hnfd, stripMarks, h2, lowerL, hlow]
        intro d hd
        rw [hcc] at hd
        simp at hd
        subst hd
        exact hcc
      · have hmem := List.mem_of_find?_eq_some h3
        have hc : p2.1 = c := by simpa using List.find?_some h3
        subst hc
        exact (by decide : ∀ q ∈ lowerTable, ∀ d ∈ normCharL q.1, normCharL d = [d]) p2 hmem
  · have hmem := List.mem_of_find?_eq_some h1
    have hc : p.1 = c := by simpa using List.find?_some h1
    subst hc
    exact (by decide : ∀ q ∈ nfdTable, ∀ d ∈ normCharL q.1, normCharL d = [d]) p hmem

/-- A list of pipeline fixed points is fixed by `normList`. -/
theorem normList_fix (m : List Char) (h : ∀ d ∈ m, normCharL d = [d]) :
    normList m = m := by
  induction m with
  | nil => simp [normList, nfdL, stripMarks, lowerL]
  | cons d t ih =>
    rw [normList_cons, h d (List.mem_cons_self d t),
      ih (fun x hx => h x (List.mem_cons_of_mem d hx))]
    rfl

/-- Normalization is idempotent. -/
theorem normList_idem (l : List Char) : normList (normList l) = normList l := by
  induction l with
  | nil => simp [normList, nfdL, stripMarks, lowerL]
  | cons c t ih =>
    rw [normList_cons, normList_append, ih, normList_fix _ (normCharL_closed c)]

/-!
## Claim theorems
-/

/-- C2: for every containment predicate, loaded dataset and validated
point, `identifyAt` resolves to the first containing region in dataset
insertion order (`hits[0]`) — never any other — and to the "no commune
found" text (not an error) when no region contains the point; being a pure
function of the point and dataset, repeated calls give identical results. -/
theorem claim_C2_resolver_first_in_order
    (inside : ℚ × ℚ → Region → Bool) (regions : List Region) (lat lng : ℚ) :
    (identifyAt inside (some regions) lat lng =
      match regions.find? (inside (lng, lat)) with
      | some r => "Commune: " ++ displayName r
      | none => noCommuneMsg) ∧
    identifyAt inside (some regions) lat lng = identifyAt inside (some regions) lat lng := by
  refine ⟨?_, rfl⟩
  have hhf := head?_filter_eq_find? (inside (lng, lat)) regions
  cases hf : regions.filter (inside (lng, lat)) with
  | nil =>
    rw [hf] at hhf
    simp only [List.head?_nil] at hhf
    simp [identifyAt, pointInLayer, hf, ← hhf]
  | cons h t =>
    rw [hf] at hhf
    simp only [List.head?_cons] at hhf
    simp [identifyAt, pointInLayer, hf, ← hhf]

/-- C4: validation succeeds exactly when both coordinates parsed and lie in
the inclusive ranges `[-90, 90]` and `[-180, 180]`; a non-finite
`parseFloat` result (`NaN` or `Infinity`) is mapped to `null` by
`parseNumber`, which `validateLatLon` rejects; out-of-range values always
produce a hard error message, never a silent correction. -/
theorem claim_C4_validation_ranges (lat lon : Option ℚ) :
    (validateLatLon lat lon = none ↔
      ∃ la lo, lat = some la ∧ lon = some lo ∧
        -90 ≤ la ∧ la ≤ 90 ∧ -180 ≤ lo ∧ lo ≤ 180) ∧
    (∀ s : String,
      (jsParseFloat s.data = .nan ∨ ∃ b, jsParseFloat s.data = .inf b) →
      parseNumber s = none) := by
  constructor
  · cases lat with
    | none => simp [validateLatLon]
    | some la =>
      cases lon with
      | none => simp [validateLatLon]
      | some lo =>
        by_cases h : la < -90 ∨ la > 90 ∨ lo < -180 ∨ lo > 180
        · simp only [validateLatLon, if_pos h]
          constructor
          · intro hc; exact absurd hc (by simp)
          · rintro ⟨la2, lo2, hla, hlo, h1, h2, h3, h4⟩
            injection hla with e1
            injection hlo with e2
            subst e1
            subst e2
            rcases h with h | h | h | h <;> linarith
        · simp only [validateLatLon, if_neg h]
          push_neg at h
          simp only [true_iff]
          exact ⟨la, lo, rfl, rfl, h.1, h.2.1, h.2.2.1, h.2.2.2⟩
  · intro s hs
    rcases hs with h | ⟨b, h⟩ <;> simp [parseNumber, h]

/-- C4 witness: the boundary pair `(-90, 180)` is accepted, `(91, 0)` is
rejected with a hard error, and the non-finite string `"Infinity"` parses
to `null`. -/
theorem claim_C4_validation_ranges_witness :
    validateLatLon (some (-90)) (some 180) = none ∧
    validateLatLon (some 91) (some 0) ≠ none ∧
    parseNumber "Infinity" = none := by
  refine ⟨?_, ?_, ?_⟩
  · exact (claim_C4_validation_ranges (some (-90)) (some 180)).1.mpr
      ⟨-90, 180, rfl, rfl, by decide, by decide, by decide, by decide⟩
  · intro h
    obtain ⟨la, lo, hla, hlo, h1, h2, h3, h4⟩ :=
      (claim_C4_validation_ranges (some 91) (some 0)).1.mp h
    injection hla with e1
    subst e1
    exact absurd h2 (by decide)
  · exact (claim_C4_validation_ranges none none).2 "Infinity"
      (Or.inr ⟨false, by decide⟩)

/-- C5: `searchByName` normalizes query and candidate names through the
NFD-decompose / strip-marks / lowercase pipeline, returns the first region
in dataset order whose normalized name contains the normalized query as a
substring (the scan short-circuits at the first hit), reports no-match as a
normal negative result, and in particular finds the region named "Nouméa"
for the query "noum". -/
theorem claim_C5_name_search (regions : List Region) (raw : String) :
    (searchByName (some regions) raw =
      match regions.find?
        (fun layer => containsSub (normList raw.data) (normList (nameOrEmpty layer).data)) with
      | none => .noMatch
      | some r => .found r) ∧
    searchByName (some [⟨some "Nouméa"⟩]) "noum" = .found ⟨some "Nouméa"⟩ := by
  constructor
  · simp only [searchByName]
    rw [searchFold_eq_find?
      (fun layer => containsSub (normList raw.data) (normList (nameOrEmpty layer).data))]
  · decide

/-- C8: lookups against a missing or empty dataset complete gracefully —
a point lookup yields the not-found outcome, and a name lookup before the
dataset loads reports "data not loaded" (and no-match on an empty dataset)
— rather than throwing or hanging. -/
theorem claim_C8_lookups_degrade_gracefully
    (inside : ℚ × ℚ → Region → Bool) (lat lng : ℚ) (raw : String) :
    identifyAt inside none lat lng = noCommuneMsg ∧
    identifyAt inside (some []) lat lng = noCommuneMsg ∧
    searchByName none raw = .dataNotLoaded ∧
    searchByName (some []) raw = .noMatch := by
  exact ⟨rfl, rfl, rfl, rfl⟩

/-- C9: the name-search normalization (NFD decomposition, stripping of the
combining marks U+0300–U+036F, lowercasing) is idempotent on every
string. -/
theorem claim_C9_normalize_idempotent (s : String) :
    normalize (normalize s) = normalize s := by
  simp only [normalize]
  exact congrArg String.mk (normList_idem s.data)

/-- C10: a query whose normalized form is empty matches every candidate
(the empty string is a substring of every normalized name), so against a
non-empty dataset `searchByName` returns the first region in dataset order
rather than reporting no match. -/
theorem claim_C10_empty_normalized_query_matches_first
    (r : Region) (rest : List Region) (raw : String)
    (h : normList raw.data = []) :
    searchByName (some (r :: rest)) raw = .found r := by
  simp only [searchByName, h]
  rw [searchFold_eq_find?
    (fun layer => containsSub [] (normList (nameOrEmpty layer).data))]
  rw [List.find?_cons_of_pos rest
    (show (fun layer => containsSub [] (normList (nameOrEmpty layer).data)) r = true from
      containsSub_nil _)]

/-- C10 witness: a query consisting of a single combining acute accent
normalizes to the empty string and returns the first (here only) region. -/
theorem claim_C10_empty_normalized_query_matches_first_witness :
    searchByName (some [⟨some "Nouméa"⟩, ⟨some "Dumbéa"⟩]) ⟨[Char.ofNat 769]⟩ =
      .found ⟨some "Nouméa"⟩ :=
  claim_C10_empty_normalized_query_matches_first ⟨some "Nouméa"⟩ [⟨some "Dumbéa"⟩]
    ⟨[Char.ofNat 769]⟩ (by decide)

/-- Rounding with `toFixed(2)` moves a value by at most half of the last rendered
digit. -/
theorem toFixed2_close (q : ℚ) : |Adv.toFixed2 q - q| ≤ 1 / 200 := by
  have h1 : (⌊q * 100 + 1 / 2⌋ : ℚ) ≤ q * 100 + 1 / 2 := Int.floor_le _
  have h2 : q * 100 + 1 / 2 - 1 < (⌊q * 100 + 1 / 2⌋ : ℚ) := Int.sub_one_lt_floor _
  rw [Adv.toFixed2, abs_le]
  constructor <;> linarith

/-- Recombining a nonnegative degrees value with arbitrary minutes and the
rounded seconds recovers the original up to the seconds-rounding error. -/
theorem rt_core (a D M : ℚ) (hD : 0 ≤ D) :
    |(|D| + M / 60 + Adv.toFixed2 (((a - D) * 60 - M) * 60) / 3600) - a| ≤ 1 / 720000 := by
  have hs := toFixed2_close (((a - D) * 60 - M) * 60)
  rw [abs_of_nonneg hD]
  rw [abs_le] at hs ⊢
  constructor <;> linarith [hs.1, hs.2]

/-- C6 counterexample: at `x = -1/2` the round trip returns `+1/2` — the
degrees component is zero, so `dms2dec` cannot recover the sign — an error
of a full degree, far beyond any small tolerance. -/
theorem claim_C6_counterexample :
    Adv.dms2dec (Adv.dec2dms (-(1 / 2))) = 1 / 2 ∧
    ¬|Adv.dms2dec (Adv.dec2dms (-(1 / 2))) - -(1 / 2)| ≤ 1 / 720000 := by
  have habs : |(-(1 / 2) : ℚ)| = 1 / 2 := by
    rw [abs_neg]
    exact abs_of_nonneg (by norm_num)
  have h1 : Adv.dec2dms (-(1 / 2)) = (0, 30, 0) := by
    rw [Adv.dec2dms, habs]
    norm_num [Adv.toFixed2, Prod.mk.injEq, Int.fract]
  have h2 : Adv.dms2dec (Adv.dec2dms (-(1 / 2))) = 1 / 2 := by
    rw [h1, Adv.dms2dec]
    norm_num
  refine ⟨h2, ?_⟩
  rw [h2]
  norm_num

/-- C6 (amended): the decimal→DMS→decimal round trip is exact up to the
seconds-rounding error `1/720000` of a degree for every
`x ∈ [-180, 180]` with `x ≥ 0` or `x ≤ -1`; for `-1 < x < 0` the sign is
lost (the degrees component is zero) and the result approximates `-x`
instead. -/
theorem claim_C6_dms_roundtrip (x : ℚ) (hlo : -180 ≤ x) (hhi : x ≤ 180) :
    ((0 ≤ x ∨ x ≤ -1) → |Adv.dms2dec (Adv.dec2dms x) - x| ≤ 1 / 720000) ∧
    (-1 < x → x < 0 → |Adv.dms2dec (Adv.dec2dms x) + x| ≤ 1 / 720000) := by
  constructor
  · rintro (hpos | hneg1)
    · have hax : |x| = x := abs_of_nonneg hpos
      have hD : (0:ℚ) ≤ (⌊x⌋ : ℚ) := by exact_mod_cast Int.floor_nonneg.mpr hpos
      have h1 : Adv.dec2dms x = ((⌊x⌋ : ℚ) * 1, (⌊(x - ⌊x⌋) * 60⌋ : ℚ),
          Adv.toFixed2 (((x - ⌊x⌋) * 60 - ⌊(x - ⌊x⌋) * 60⌋) * 60)) := by
        rw [Adv.dec2dms, if_neg (not_lt.mpr hpos), hax]
      rw [h1, Adv.dms2dec]
      simp only [mul_one]
      rw [if_neg (not_lt.mpr hD)]
      exact rt_core x (⌊x⌋ : ℚ) (⌊(x - ⌊x⌋) * 60⌋ : ℚ) hD
    · have hx0 : x < 0 := by linarith
      have hax : |x| = -x := abs_of_neg hx0
      have hD1 : (1 : ℤ) ≤ ⌊-x⌋ := Int.le_floor.mpr (by exact_mod_cast (by linarith : (1:ℚ) ≤ -x))
      have hD : (0:ℚ) < (⌊-x⌋ : ℚ) := by exact_mod_cast lt_of_lt_of_le Int.zero_lt_one hD1
      have h1 : Adv.dec2dms x = ((⌊-x⌋ : ℚ) * -1, (⌊(-x - ⌊-x⌋) * 60⌋ : ℚ),
          Adv.toFixed2 (((-x - ⌊-x⌋) * 60 - ⌊(-x - ⌊-x⌋) * 60⌋) * 60)) := by
        rw [Adv.dec2dms, if_pos hx0, hax]
      rw [h1, Adv.dms2dec]
      simp only [mul_neg_one]
      rw [if_pos (by linarith : -(⌊-x⌋ : ℚ) < 0), abs_neg]
      have hcore := rt_core (-x) (⌊-x⌋ : ℚ) (⌊(-x - ⌊-x⌋) * 60⌋ : ℚ) (le_of_lt hD)
      have hrw : -(|(⌊-x⌋:ℚ)| + (⌊(-x - ⌊-x⌋) * 60⌋ : ℚ) / 60 +
            Adv.toFixed2 (((-x - ⌊-x⌋) * 60 - ⌊(-x - ⌊-x⌋) * 60⌋) * 60) / 3600) - x
          = -((|(⌊-x⌋:ℚ)| + (⌊(-x - ⌊-x⌋) * 60⌋ : ℚ) / 60 +
            Adv.toFixed2 (((-x - ⌊-x⌋) * 60 - ⌊(-x - ⌊-x⌋) * 60⌋) * 60) / 3600) - -x) := by
        ring
      rw [hrw, abs_neg]
      exact hcore
  · intro h1 h2
    have hax : |x| = -x := abs_of_neg h2
    have hD0 : ⌊-x⌋ = 0 := by
      rw [Int.floor_eq_zero_iff, Set.mem_Ico]
      exact ⟨by linarith, by linarith⟩
    have hD : (0:ℚ) ≤ (⌊-x⌋ : ℚ) := by rw [hD0]; norm_num
    have hh : Adv.dec2dms x = ((⌊-x⌋ : ℚ) * -1, (⌊(-x - ⌊-x⌋) * 60⌋ : ℚ),
        Adv.toFixed2 (((-x - ⌊-x⌋) * 60 - ⌊(-x - ⌊-x⌋) * 60⌋) * 60)) := by
      rw [Adv.dec2dms, if_pos h2, hax]
    rw [hh, Adv.dms2dec]
    simp only [mul_neg_one]
    rw [if_neg (by rw [hD0]; norm_num : ¬(-((⌊-x⌋:ℤ):ℚ) < 0)), abs_neg]
    rw [← sub_neg_eq_add]
    exact rt_core (-x) (⌊-x⌋ : ℚ) (⌊(-x - ⌊-x⌋) * 60⌋ : ℚ) hD

/-- C6 witness: the round trip at `x = 20` is within the tolerance. -/
theorem claim_C6_dms_roundtrip_witness :
    |Adv.dms2dec (Adv.dec2dms 20) - 20| ≤ 1 / 720000 :=
  (claim_C6_dms_roundtrip 20 (by decide) (by decide)).1 (Or.inl (by decide))

/-- Clearing always leaves both selections empty and selection
mode off. -/
theorem clearSelection_clears (s : AppState) :
    (clearSelection s).selectedPointId = none ∧
    (clearSelection s).selectedPolygon = none ∧
    (clearSelection s).selectionMode = false := by
  unfold clearSelection
  cases hp : s.selectedPolygon <;> cases hc : s.communePolys <;>
    cases hd : s.selectedPointId <;> simp_all

/-- Every selection operation leaves the at-most-one-selection invariant
intact. -/
theorem applyOp_preserves (s : AppState) (op : SelOp)
    (h : atMostOneSelected s) : atMostOneSelected (applyOp s op) := by
  cases op with
  | point id =>
    show atMostOneSelected (selectPoint s id)
    unfold selectPoint
    cases hf : s.points.find? (fun p => p.id == id) with
    | none => exact h
    | some p =>
      right
      simp [(clearSelection_clears s).2.1]
  | commune l =>
    show atMostOneSelected (selectCommuneLayer s l)
    cases l with
    | none => exact h
    | some pid =>
      left
      simp [selectCommuneLayer, (clearSelection_clears s).1]
  | clear =>
    exact Or.inl (clearSelection_clears s).1

/-- C7: over any sequence of `selectPoint`, `selectCommuneLayer` and
`clearSelection` operations the point and polygon selections are never
both set; each select operation reverts the previous selection first
(leaving the other slot empty); and clearing a region selection restores
that polygon's style to the dataset's *current* default style, by
delegating to the layer's `resetStyle`. -/
theorem claim_C7_selection_invariant :
    (∀ (s : AppState) (ops : List SelOp),
      atMostOneSelected s → atMostOneSelected (runOps s ops)) ∧
    (∀ (s : AppState) (id : ℕ),
      (s.points.find? (fun p => p.id == id)).isSome →
      (selectPoint s id).selectedPointId = some id ∧
      (selectPoint s id).selectedPolygon = none) ∧
    (∀ (s : AppState) (pid : ℕ),
      (selectCommuneLayer s (some pid)).selectedPolygon = some pid ∧
      (selectCommuneLayer s (some pid)).selectedPointId = none) ∧
    (∀ (s : AppState) (pid : ℕ) (polys : List (ℕ × PolyStyle)),
      s.selectedPolygon = some pid → s.communePolys = some polys →
      (clearSelection s).communePolys =
        some (setPolyStyle polys pid (fun _ => s.defaultPolyStyle)) ∧
      (clearSelection s).selectedPolygon = none ∧
      (clearSelection s).selectedPointId = none) := by
  refine ⟨?_, ?_, ?_, ?_⟩
  · intro s ops h
    induction ops generalizing s with
    | nil => exact h
    | cons op rest ih => exact ih (applyOp s op) (applyOp_preserves s op h)
  · intro s id hf
    rw [Option.isSome_iff_exists] at hf
    obtain ⟨p, hp⟩ := hf
    unfold selectPoint
    rw [hp]
    simp [(clearSelection_clears s).2.1]
  · intro s pid
    simp [selectCommuneLayer, (clearSelection_clears s).1]
  · intro s pid polys hsel hcp
    unfold clearSelection
    rw [hsel, hcp]
    cases hd : s.selectedPointId <;> simp

/-- C7 witness: a concrete run — a state with a selected polygon, then
select a point, select a polygon, clear — keeps the invariant, and the
instantiated revert/reset facts hold. -/
theorem claim_C7_selection_invariant_witness :
    atMostOneSelected (runOps
      ⟨[⟨1, Shape.circle, MarkerVisual.circleStyle 6 1⟩],
        some [(0, ⟨"#3388ff", 2, "#66BB66", 1⟩)], ⟨"#3388ff", 2, "#66BB66", 1⟩,
        none, some 0, true⟩
      [SelOp.point 1, SelOp.commune (some 0), SelOp.clear]) ∧
    (selectPoint
      ⟨[⟨1, Shape.circle, MarkerVisual.circleStyle 6 1⟩],
        some [(0, ⟨"#3388ff", 2, "#66BB66", 1⟩)], ⟨"#3388ff", 2, "#66BB66", 1⟩,
        none, some 0, true⟩ 1).selectedPolygon = none ∧
    (clearSelection
      ⟨[⟨1, Shape.circle, MarkerVisual.circleStyle 6 1⟩],
        some [(0, ⟨"#3388ff", 2, "#66BB66", 1⟩)], ⟨"#3388ff", 2, "#66BB66", 1⟩,
        none, some 0, true⟩).communePolys =
      some (setPolyStyle [(0, ⟨"#3388ff", 2, "#66BB66", 1⟩)] 0
        (fun _ => ⟨"#3388ff", 2, "#66BB66", 1⟩)) := by
  refine ⟨?_, ?_, ?_⟩
  · exact claim_C7_selection_invariant.1 _ _ (Or.inl rfl)
  · exact (claim_C7_selection_invariant.2.1 _ 1 (by decide)).2
  · exact (claim_C7_selection_invariant.2.2.2 _ 0 _ rfl rfl).1

/-- Evaluation of `parseNumber` on a plain nonnegative integer literal. -/
theorem parseNumber_parts_nat (s : String) (ds : List Char) (n : ℕ)
    (hp : parseParts s.data = .num false ds [] false [])
    (hd : digitsToNat ds = n) :
    parseNumber s = some (n : ℚ) := by
  have h0 : digitsToNat ([] : List Char) = 0 := rfl
  simp [parseNumber, jsParseFloat, hp, partsValue, decValue, hd, h0]

/-- Evaluation of `parseNumber` on a negated integer literal. -/
theorem parseNumber_parts_negNat (s : String) (ds : List Char) (n : ℕ)
    (hp : parseParts s.data = .num true ds [] false [])
    (hd : digitsToNat ds = n) :
    parseNumber s = some (-(n : ℚ)) := by
  have h0 : digitsToNat ([] : List Char) = 0 := rfl
  simp [parseNumber, jsParseFloat, hp, partsValue, decValue, hd, h0]

/-- Evaluation of `jsParseFloatOpt` on an unsigned decimal literal. -/
theorem jsParseFloatOpt_parts (l : List Char) (ip fp : List Char) (a b k : ℕ) (q : ℚ)
    (hp : parseParts l = .num false ip fp false [])
    (ha : digitsToNat ip = a) (hb : digitsToNat fp = b) (hk : fp.length = k)
    (hq : (a : ℚ) + (b : ℚ) / 10 ^ k = q) :
    jsParseFloatOpt l = some q := by
  have h0 : digitsToNat ([] : List Char) = 0 := rfl
  simp [jsParseFloatOpt, jsParseFloat, hp, partsValue, decValue, ha, hb, hk, h0, ← hq]

/-- C1 counterexample: the `part_001` implementation of
`locateFromSingleDec` does not apply the swap heuristic.  On the matched
pair `(165, -21)` — first number outside `[-90, 90]`, second inside — the
claim demands the swapped interpretation `identify(-21, 165)`, but this
implementation validates `(lat = 165, lon = -21)` as written and fails with
the range error. -/
theorem claim_C1_counterexample :
    Variant.locateFromSingleDec "165,-21" = .toast rangeErrMsg ∧
    Variant.locateFromSingleDec "165,-21" ≠ .identify (-21) 165 := by
  have hm : matchSingleDecStrict (trimStr "165,-21").data =
      some (['1', '6', '5'], ['-', '2', '1']) := by decide
  have hne : ¬trimStr "165,-21" = "" := by decide
  have ha : parseNumber ⟨['1', '6', '5']⟩ = some ((165 : ℕ) : ℚ) :=
    parseNumber_parts_nat ⟨['1', '6', '5']⟩ ['1', '6', '5'] 165 (by decide) (by decide)
  have hb : parseNumber ⟨['-', '2', '1']⟩ = some (-((21 : ℕ) : ℚ)) :=
    parseNumber_parts_negNat ⟨['-', '2', '1']⟩ ['2', '1'] 21 (by decide) (by decide)
  norm_num at ha hb
  have hv : validateLatLon (some (165 : ℚ)) (some (-21 : ℚ)) = some rangeErrMsg := by
    decide
  have h1 : Variant.locateFromSingleDec "165,-21" = .toast rangeErrMsg := by
    simp only [Variant.locateFromSingleDec, if_neg hne, hm, ha, hb, hv]
  exact ⟨h1, by rw [h1]; intro hc; exact LocateOutcome.noConfusion hc⟩

/-- C1 (amended): in `app.js`'s `locateFromSingleDec` a matched two-number
pair `(a, b)` is interpreted as `(lat := b, lon := a)` exactly when `a` is
outside `[-90, 90]` while `b` is inside, and as `(lat := a, lon := b)` as
written otherwise; the `part_001` variant never swaps — every matched pair
is interpreted `(lat, lon)` as written. -/
theorem claim_C1_swap_heuristic :
    (∀ (raw : String) (g1 g2 : List Char) (a b : ℚ),
      matchSingleDec (trimStr raw).data = some (g1, g2) →
      parseNumber ⟨g1⟩ = some a → parseNumber ⟨g2⟩ = some b →
      (((a < -90 ∨ a > 90) ∧ (-90 ≤ b ∧ b ≤ 90)) →
        App.locateFromSingleDec raw =
          (match validateLatLon (some b) (some a) with
           | some err => .toast err
           | none => .identify b a)) ∧
      (¬((a < -90 ∨ a > 90) ∧ (-90 ≤ b ∧ b ≤ 90)) →
        App.locateFromSingleDec raw =
          (match validateLatLon (some a) (some b) with
           | some err => .toast err
           | none => .identify a b))) ∧
    (∀ (raw : String) (g1 g2 : List Char) (a b : ℚ),
      matchSingleDecStrict (trimStr raw).data = some (g1, g2) →
      parseNumber ⟨g1⟩ = some a → parseNumber ⟨g2⟩ = some b →
      Variant.locateFromSingleDec raw =
        (match validateLatLon (some a) (some b) with
         | some err => .toast err
         | none => .identify a b)) := by
  constructor
  · intro raw g1 g2 a b hmatch ha hb
    have hne : ¬trimStr raw = "" := by
      intro h0
      rw [h0] at hmatch
      have hnil : matchSingleDec ("" : String).data = none := by decide
      rw [hnil] at hmatch
      exact Option.noConfusion hmatch
    constructor
    · intro hcond
      simp only [App.locateFromSingleDec, if_neg hne, hmatch, ha, hb, if_pos hcond]
    · intro hcond
      simp only [App.locateFromSingleDec, if_neg hne, hmatch, ha, hb, if_neg hcond]
  · intro raw g1 g2 a b hmatch ha hb
    have hne : ¬trimStr raw = "" := by
      intro h0
      rw [h0] at hmatch
      have hnil : matchSingleDecStrict ("" : String).data = none := by decide
      rw [hnil] at hmatch
      exact Option.noConfusion hmatch
    simp only [Variant.locateFromSingleDec, if_neg hne, hmatch, ha, hb]
    cases hv : validateLatLon (some a) (some b) <;> simp [hv]

/-- C1 witness: `app.js` swaps the pair `(165, -21)` — first number outside
the latitude range, second inside — and resolves at `(lat, lon) =
(-21, 165)`. -/
theorem claim_C1_swap_heuristic_witness :
    App.locateFromSingleDec "165,-21" = .identify (-21) 165 := by
  have hm : matchSingleDec (trimStr "165,-21").data =
      some (['1', '6', '5'], ['-', '2', '1']) := by decide
  have ha : parseNumber ⟨['1', '6', '5']⟩ = some ((165 : ℕ) : ℚ) :=
    parseNumber_parts_nat ⟨['1', '6', '5']⟩ ['1', '6', '5'] 165 (by decide) (by decide)
  have hb : parseNumber ⟨['-', '2', '1']⟩ = some (-((21 : ℕ) : ℚ)) :=
    parseNumber_parts_negNat ⟨['-', '2', '1']⟩ ['2', '1'] 21 (by decide) (by decide)
  norm_num at ha hb
  have h := (claim_C1_swap_heuristic.1 "165,-21" _ _ _ _ hm ha hb).1 (by decide)
  rw [h]
  have hv : validateLatLon (some (-21 : ℚ)) (some (165 : ℚ)) = none := by decide
  rw [hv]

/-- C3: `locateFromSingleDms` takes exactly the first two regex matches in
left-to-right order as latitude then longitude regardless of the compass
letters (a); each component is negative iff its degree token is negative,
otherwise iff its compass letter is `S` or `W` (b); fewer than two matches
on a non-empty input is a parse failure (c); and the scenario string
`20°44'19.7"S 164°47'41.6"E` parses to `(-20.73880…, 164.79488…)`, within
`10⁻⁵` of `-20.7388` and within `2·10⁻⁴` of `164.7947` (d). -/
theorem claim_C3_single_dms_parsing :
    (∀ (raw : String) (g0 g1 : DmsMatch) (rest : List DmsMatch),
      scanDms (trimStr raw).data = g0 :: g1 :: rest →
      App.locateFromSingleDms raw =
        (match dmsMatchToDecimal g0, dmsMatchToDecimal g1 with
         | some la, some lo =>
           (match validateLatLon (some la) (some lo) with
            | some err => .toast err
            | none => .identify la lo)
         | _, _ => .toast invalidDmsMsg)) ∧
    (∀ (m : DmsMatch) (v : ℚ),
      dmsMatchToDecimal m = some v →
      ∃ deg mn sc : ℚ,
        jsParseFloatOpt m.deg = some deg ∧
        (match m.min with | some s2 => jsParseFloatOpt s2 | none => some 0) = some mn ∧
        (match m.sec with | some s2 => jsParseFloatOpt s2 | none => some 0) = some sc ∧
        0 ≤ mn ∧ mn < 60 ∧ 0 ≤ sc ∧ sc < 60 ∧
        v = (if deg < 0 then -1 else
              if upperChar m.dir = Char.ofNat 83 ∨ upperChar m.dir = Char.ofNat 87 then -1
              else 1) * (|deg| + mn / 60 + sc / 3600)) ∧
    (∀ raw : String, trimStr raw ≠ "" → (scanDms (trimStr raw).data).length < 2 →
      App.locateFromSingleDms raw = .toast dmsParseErrMsg) ∧
    (App.locateFromSingleDms dmsScenario =
        .identify (-746597 / 36000) (741577 / 4500) ∧
      |(-746597 / 36000 : ℚ) - (-20.7388)| < 1 / 100000 ∧
      |(741577 / 4500 : ℚ) - 164.7947| < 1 / 5000) := by
  have hpartA : ∀ (raw : String) (g0 g1 : DmsMatch) (rest : List DmsMatch),
      scanDms (trimStr raw).data = g0 :: g1 :: rest →
      App.locateFromSingleDms raw =
        (match dmsMatchToDecimal g0, dmsMatchToDecimal g1 with
         | some la, some lo =>
           (match validateLatLon (some la) (some lo) with
            | some err => .toast err
            | none => .identify la lo)
         | _, _ => .toast invalidDmsMsg) := by
    intro raw g0 g1 rest hscan
    have hne : ¬trimStr raw = "" := by
      intro h0
      rw [h0] at hscan
      have hnil : scanDms ("" : String).data = [] := rfl
      rw [hnil] at hscan
      exact List.noConfusion hscan
    simp only [App.locateFromSingleDms, if_neg hne, hscan]
  refine ⟨hpartA, ?_, ?_, ?_⟩
  · intro m v hv
    unfold dmsMatchToDecimal at hv
    rcases hdeg : jsParseFloatOpt m.deg with _ | deg
    · rw [hdeg] at hv
      exact absurd hv (by simp)
    rcases hmin : (match m.min with | some s2 => jsParseFloatOpt s2 | none => some 0)
        with _ | mn
    · rw [hdeg, hmin] at hv
      exact absurd hv (by simp)
    rcases hsec : (match m.sec with | some s2 => jsParseFloatOpt s2 | none => some 0)
        with _ | sc
    · rw [hdeg, hmin, hsec] at hv
      exact absurd hv (by simp)
    rw [hdeg, hmin, hsec] at hv
    simp only [] at hv
    by_cases hrange : mn < 0 ∨ 60 ≤ mn ∨ sc < 0 ∨ 60 ≤ sc
    · rw [if_pos hrange] at hv
      exact absurd hv (by simp)
    · rw [if_neg hrange] at hv
      push_neg at hrange
      refine ⟨deg, mn, sc, rfl, hmin, hsec,
        hrange.1, hrange.2.1, hrange.2.2.1, hrange.2.2.2, ?_⟩
      by_cases hdneg : deg < 0
      · rw [if_pos hdneg] at hv ⊢
        injection hv with e
        rw [← e]
        ring
      · rw [if_neg hdneg] at hv ⊢
        by_cases hdir : upperChar m.dir = Char.ofNat 83 ∨ upperChar m.dir = Char.ofNat 87
        · rw [if_pos hdir] at hv ⊢
          injection hv with e
          rw [← e]
          ring
        · rw [if_neg hdir] at hv ⊢
          injection hv with e
          rw [← e]
          ring
  · intro raw hne hlen
    cases hs : scanDms (trimStr raw).data with
    | nil => simp only [App.locateFromSingleDms, if_neg hne, hs]
    | cons g0 t =>
      cases t with
      | nil => simp only [App.locateFromSingleDms, if_neg hne, hs]
      | cons g1 t2 =>
        rw [hs] at hlen
        simp at hlen
        omega
  · have e0 : jsParseFloatOpt ['2', '0'] = some (20 : ℚ) :=
      jsParseFloatOpt_parts ['2', '0'] ['2', '0'] [] 20 0 0 20
        (by decide) (by decide) (by decide) (by decide) (by norm_num)
    have e1 : jsParseFloatOpt ['4', '4'] = some (44 : ℚ) :=
      jsParseFloatOpt_parts ['4', '4'] ['4', '4'] [] 44 0 0 44
        (by decide) (by decide) (by decide) (by decide) (by norm_num)
    have e2 : jsParseFloatOpt ['1', '9', '.', '7'] = some (197 / 10 : ℚ) :=
      jsParseFloatOpt_parts ['1', '9', '.', '7'] ['1', '9'] ['7'] 19 7 1 (197 / 10)
        (by decide) (by decide) (by decide) (by decide) (by norm_num)
    have e3 : jsParseFloatOpt ['1', '6', '4'] = some (164 : ℚ) :=
      jsParseFloatOpt_parts ['1', '6', '4'] ['1', '6', '4'] [] 164 0 0 164
        (by decide) (by decide) (by decide) (by decide) (by norm_num)
    have e4 : jsParseFloatOpt ['4', '7'] = some (47 : ℚ) :=
      jsParseFloatOpt_parts ['4', '7'] ['4', '7'] [] 47 0 0 47
        (by decide) (by decide) (by decide) (by decide) (by norm_num)
    have e5 : jsParseFloatOpt ['4', '1', '.', '6'] = some (208 / 5 : ℚ) :=
      jsParseFloatOpt_parts ['4', '1', '.', '6'] ['4', '1'] ['6'] 41 6 1 (208 / 5)
        (by decide) (by decide) (by decide) (by decide) (by norm_num)
    have hg0 : dmsMatchToDecimal
        ⟨['2', '0'], some ['4', '4'], some ['1', '9', '.', '7'], Char.ofNat 83⟩ =
        some (-746597 / 36000) := by
      simp only [dmsMatchToDecimal, e0, e1, e2]
      rw [if_neg (by norm_num :
        ¬((44 : ℚ) < 0 ∨ 60 ≤ (44 : ℚ) ∨ (197 / 10 : ℚ) < 0 ∨ 60 ≤ (197 / 10 : ℚ)))]
      rw [if_neg (by norm_num : ¬((20 : ℚ) < 0))]
      rw [if_pos (Or.inl (by decide :
        upperChar (⟨['2', '0'], some ['4', '4'], some ['1', '9', '.', '7'],
          Char.ofNat 83⟩ : DmsMatch).dir = Char.ofNat 83))]
      norm_num
    have hg1 : dmsMatchToDecimal
        ⟨['1', '6', '4'], some ['4', '7'], some ['4', '1', '.', '6'], Char.ofNat 69⟩ =
        some (741577 / 4500) := by
      simp only [dmsMatchToDecimal, e3, e4, e5]
      rw [if_neg (by norm_num :
        ¬((47 : ℚ) < 0 ∨ 60 ≤ (47 : ℚ) ∨ (208 / 5 : ℚ) < 0 ∨ 60 ≤ (208 / 5 : ℚ)))]
      rw [if_neg (by norm_num : ¬((164 : ℚ) < 0))]
      rw [if_neg (by decide :
        ¬(upperChar (⟨['1', '6', '4'], some ['4', '7'], some ['4', '1', '.', '6'],
            Char.ofNat 69⟩ : DmsMatch).dir = Char.ofNat 83 ∨
          upperChar (⟨['1', '6', '4'], some ['4', '7'], some ['4', '1', '.', '6'],
            Char.ofNat 69⟩ : DmsMatch).dir = Char.ofNat 87))]
      norm_num
    have hsc : scanDms (trimStr dmsScenario).data =
        [⟨['2', '0'], some ['4', '4'], some ['1', '9', '.', '7'], Char.ofNat 83⟩,
         ⟨['1', '6', '4'], some ['4', '7'], some ['4', '1', '.', '6'], Char.ofNat 69⟩] := by
      decide
    have hval : validateLatLon (some (-746597 / 36000 : ℚ)) (some (741577 / 4500 : ℚ)) =
        none := by
      have hcond : ¬((-746597 / 36000 : ℚ) < -90 ∨ (-746597 / 36000 : ℚ) > 90 ∨
          (741577 / 4500 : ℚ) < -180 ∨ (741577 / 4500 : ℚ) > 180) := by
        push_neg
        norm_num
      simp only [validateLatLon, if_neg hcond]
    refine ⟨?_, ?_, ?_⟩
    · rw [hpartA dmsScenario _ _ _ hsc, hg0, hg1]
      simp only [hval]
    · rw [abs_lt]
      constructor <;> norm_num
    · rw [abs_lt]
      constructor <;> norm_num

/-- C3 witness: a two-word string with no DMS groups is a parse failure. -/
theorem claim_C3_single_dms_parsing_witness :
    App.locateFromSingleDms "hello world" = .toast dmsParseErrMsg :=
  claim_C3_single_dms_parsing.2.2.1 "hello world" (by decide) (by decide)

end NCL
